import Mathlib

/-!
Formal model of the fu-vv-cal course-calendar pipeline (src/main.rs).

The Rust program parses a university course page, extracts session
occurrences, and serializes them to an iCalendar document.  Pure parts of
the program are embedded as executable Lean definitions; Rust panics
(out-of-bounds indexing, `unwrap`, `expect`) are modelled by an explicit
`PRes.panic` result, returned `Err` values by `PRes.error`.

Third-party crate behavior used by the program is embedded from the
crates' documented semantics:
  * chrono `NaiveDate::parse_from_str` with format "%d.%m.%Y" and
    `NaiveTime::parse_from_str` with format "%R",
  * chrono-tz `Europe::Berlin` local-time resolution (EU daylight-saving
    rule in force since 1996: CEST between 02:00 local on the last Sunday
    of March and 03:00 local on the last Sunday of October; earlier
    historical offsets are not modelled),
  * the timespan crate's `NaiveDateTimeSpan::new` (rejects start >= end)
    and `DateTimeSpan::from_local_datetimespan` (requires a single
    local-time resolution at both endpoints),
  * the select crate's document queries and the ics crate's
    calendar/event containers.

All date-times produced by the program have whole-minute resolution (the
"%R" format carries no seconds), so naive date-times are represented as
minutes since 1970-01-01 00:00.
-/

/-- Result of running a piece of Rust code that can panic, return an
error value (`Err`), or succeed. -/
inductive PRes (α : Type) where
  | panic : PRes α
  | error : PRes α
  | ok : α → PRes α
deriving DecidableEq, Repr

/-- Value of an `ok` result, with a default for the other cases. -/
def PRes.okD : PRes α → α → α
  | .ok a, _ => a
  | _, d => d

/-- Map a function over the `ok` case. -/
def PRes.mapR (f : α → β) : PRes α → PRes β
  | .panic => .panic
  | .error => .error
  | .ok a => .ok (f a)

/-- Character for decimal digit `n % 10`. -/
def dChar (n : Nat) : Char := Char.ofNat (48 + n % 10)

/-- Numeric value of a decimal digit character. -/
def digitVal (c : Char) : Nat := c.toNat - 48

/-- UTF-8 byte length of a character list (as of Rust `str::len`). -/
def utf8Len : List Char → Nat
  | [] => 0
  | c :: cs => c.utf8Size + utf8Len cs

/-- Rust byte slicing `s[n..]`: drop the first `n` UTF-8 bytes.  Returns
`none` (a panic in Rust) when the string is shorter than `n` bytes or
byte `n` is not a character boundary. -/
def dropBytes : Nat → List Char → Option (List Char)
  | 0, cs => some cs
  | _+1, [] => none
  | n+1, c :: rest =>
    if c.utf8Size ≤ n + 1 then dropBytes (n + 1 - c.utf8Size) rest else none

/-- Rust `str::split(" ")`: split at every single space, keeping empty
pieces (the result is always non-empty). -/
def splitSp : List Char → List (List Char)
  | [] => [[]]
  | c :: cs =>
    if c = ' ' then [] :: splitSp cs
    else
      match splitSp cs with
      | [] => [[c]]
      | t :: ts => (c :: t) :: ts

/-- Skip leading whitespace (chrono trims whitespace before a numeric
format item). -/
def skipWs : List Char → List Char
  | [] => []
  | c :: cs => if c.isWhitespace then skipWs cs else c :: cs

/-- Take at most `w` leading decimal digits, returning their values and
the rest of the input. -/
def takeDigits : Nat → List Char → List Nat × List Char
  | 0, cs => ([], cs)
  | _+1, [] => ([], [])
  | w+1, c :: cs =>
    if c.isDigit then
      let p := takeDigits w cs
      (digitVal c :: p.1, p.2)
    else ([], c :: cs)

/-- Decimal value of a digit list (most significant first). -/
def digitsVal (ds : List Nat) : Nat := ds.foldl (fun a d => a * 10 + d) 0

/-- chrono's `scan::number`: read 1 to `w` leading digits greedily. -/
def scanNum (w : Nat) (cs : List Char) : Option (Nat × List Char) :=
  match takeDigits w cs with
  | ([], _) => none
  | (ds, rest) => some (digitsVal ds, rest)

/-- A numeric format item: whitespace skip, then 1 to `w` digits. -/
def scanNumWs (w : Nat) (cs : List Char) : Option (Nat × List Char) :=
  scanNum w (skipWs cs)

/-- Match one literal character. -/
def expectChar (c : Char) : List Char → Option (List Char)
  | [] => none
  | x :: xs => if x = c then some xs else none

/-- chrono's "%Y" item: whitespace skip, then an optional sign followed
by digits (at most 4 when unsigned).  Modelled from chrono's
`parse_internal` for the `Year` numeric item. -/
def scanYear (cs : List Char) : Option (Int × List Char) :=
  match skipWs cs with
  | [] => none
  | c :: rest =>
    if c = '-' then
      (scanNum rest.length rest).map (fun p => (-(p.1 : Int), p.2))
    else if c = '+' then
      (scanNum rest.length rest).map (fun p => ((p.1 : Int), p.2))
    else
      (scanNum 4 (c :: rest)).map (fun p => ((p.1 : Int), p.2))

/-- Gregorian leap year. -/
def isLeap (y : Int) : Bool :=
  (decide (Int.emod y 4 = 0) && decide (Int.emod y 100 ≠ 0)) ||
    decide (Int.emod y 400 = 0)

/-- Number of days in a month. -/
def daysInMonth (y m : Int) : Int :=
  if m = 2 then (if isLeap y then 29 else 28)
  else if m = 4 ∨ m = 6 ∨ m = 9 ∨ m = 11 then 30
  else 31

/-- Validity of a calendar date as checked by chrono's
`NaiveDate::from_ymd_opt` (year range of `NaiveDate`). -/
def dateValid (y m d : Int) : Bool :=
  decide (1 ≤ m) && decide (m ≤ 12) && decide (1 ≤ d) &&
  decide (d ≤ daysInMonth y m) &&
  decide (-262144 ≤ y) && decide (y ≤ 262143)

/-- Parsed calendar date. -/
structure YMD where
  y : Int
  m : Int
  d : Int
deriving DecidableEq, Repr

/-- Parsed wall-clock time (hours and minutes). -/
structure HM where
  h : Nat
  mi : Nat
deriving DecidableEq, Repr

/-- chrono `NaiveDate::parse_from_str(s, "%d.%m.%Y")`: day, literal dot,
month, literal dot, year; the whole input must be consumed and the date
must be a valid calendar date. -/
def parseDateDMY (cs : List Char) : Option YMD := do
  let p1 ← scanNumWs 2 cs
  let r1 ← expectChar '.' p1.2
  let p2 ← scanNumWs 2 r1
  let r2 ← expectChar '.' p2.2
  let p3 ← scanYear r2
  if p3.2 = [] ∧ dateValid p3.1 p2.1 p1.1 = true then
    some ⟨p3.1, (p2.1 : Int), (p1.1 : Int)⟩
  else none

/-- chrono `NaiveTime::parse_from_str(s, "%R")`: hour, literal colon,
minute; the whole input must be consumed, the hour must be below 24 and
the minute below 60 (seconds default to zero). -/
def parseTimeHM (cs : List Char) : Option HM := do
  let p1 ← scanNumWs 2 cs
  let r1 ← expectChar ':' p1.2
  let p2 ← scanNumWs 2 r1
  if p2.2 = [] ∧ p1.1 < 24 ∧ p2.1 < 60 then
    some ⟨p1.1, p2.1⟩
  else none

/-- Days since 1970-01-01 of a Gregorian date (Howard Hinnant's
`days_from_civil`). -/
def daysFromCivil (y m d : Int) : Int :=
  let yy : Int := if m ≤ 2 then y - 1 else y
  let era : Int := Int.fdiv yy 400
  let yoe : Int := yy - era * 400
  let mp : Int := if m ≤ 2 then m + 9 else m - 3
  let doy : Int := (153 * mp + 2) / 5 + d - 1
  let doe : Int := yoe * 365 + yoe / 4 - yoe / 100 + doy
  era * 146097 + doe - 719468

/-- Gregorian date of a day count since 1970-01-01 (Howard Hinnant's
`civil_from_days`): year, month, day. -/
def civilFromDays (z0 : Int) : Int × Int × Int :=
  let z := z0 + 719468
  let era := Int.fdiv z 146097
  let doe := z - era * 146097
  let yoe := (doe - doe / 1460 + doe / 36524 - doe / 146096) / 365
  let y := yoe + era * 400
  let doy := doe - (365 * yoe + yoe / 4 - yoe / 100)
  let mp := (5 * doy + 2) / 153
  let d := doy - (153 * mp + 2) / 5 + 1
  let m := if mp < 10 then mp + 3 else mp - 9
  (if m ≤ 2 then y + 1 else y, m, d)

/-- Weekday of a date, 0 = Sunday .. 6 = Saturday. -/
def weekdayOf (y m d : Int) : Int := Int.emod (daysFromCivil y m d + 4) 7

/-- Day of month of the last Sunday of March of year `y`. -/
def lastSunMar (y : Int) : Int := 31 - weekdayOf y 3 31

/-- Day of month of the last Sunday of October of year `y`. -/
def lastSunOct (y : Int) : Int := 31 - weekdayOf y 10 31

/-- Local minutes since epoch of a local date and time. -/
def localMinOf (y m d : Int) (h mi : Nat) : Int :=
  daysFromCivil y m d * 1440 + (h : Int) * 60 + (mi : Int)

/-- Local minute count at which the Berlin spring-forward gap starts
(02:00 local, last Sunday of March). -/
def springFwdMin (y : Int) : Int :=
  daysFromCivil y 3 (lastSunMar y) * 1440 + 120

/-- Local minute count at which the Berlin fall-back fold starts
(02:00 local, last Sunday of October). -/
def fallBackMin (y : Int) : Int :=
  daysFromCivil y 10 (lastSunOct y) * 1440 + 120

/-- chrono `LocalResult`: resolution of a naive local time in a zone. -/
inductive LRes where
  | noneL : LRes
  | singleL : Int → LRes
  | ambiguousL : Int → Int → LRes
deriving DecidableEq, Repr

/-- chrono-tz `Europe::Berlin` resolution of a naive local date-time
(year `y`, `loc` local minutes since epoch): the UTC offset in minutes,
`noneL` inside the spring-forward gap, `ambiguousL` inside the fall-back
fold.  Modelled for the EU rule in force since 1996. -/
def berlinFromLocal (y loc : Int) : LRes :=
  let s := springFwdMin y
  let f := fallBackMin y
  if loc < s then .singleL 60
  else if loc < s + 60 then .noneL
  else if loc < f then .singleL 120
  else if loc < f + 60 then .ambiguousL 120 60
  else .singleL 60

/-- chrono `LocalResult::single`: a unique resolution or nothing. -/
def LRes.single : LRes → Option Int
  | .singleL o => some o
  | _ => none

/-- A chrono `DateTime<Tz>`: an absolute instant (UTC minutes since
epoch) together with its resolved UTC offset in minutes. -/
structure Instant where
  utc : Int
  off : Int
deriving DecidableEq, Repr

/-- chrono `DateTime::naive_local`: the local date-time (in minutes)
represented by an instant. -/
def naiveLocal (i : Instant) : Int := i.utc + i.off

/-- The timespan crate's `DateTimeSpan<Tz>`: a start and end instant.
The `stop` field models the source's `end` field (a Lean keyword). -/
structure DateTimeSpan where
  start : Instant
  stop : Instant
deriving DecidableEq, Repr

/-- `parse_timespan` from src/main.rs.  Drops the first 4 bytes, splits
the remainder on single spaces, reads tokens 0, 1 and 3 (panicking when
fewer than 4 tokens exist), parses them as date, start time and end
time, builds a `NaiveDateTimeSpan` (whose `unwrap` panics when the start
is not strictly before the end) and resolves both endpoints in the
Berlin timezone (a non-single resolution is a returned error). -/
def parse_timespan (s : String) : PRes DateTimeSpan :=
  match dropBytes 4 s.data with
  | none => .panic
  | some cs =>
    let toks := splitSp cs
    if toks.length < 4 then .panic
    else
      match parseDateDMY (toks.getD 0 []), parseTimeHM (toks.getD 1 []),
            parseTimeHM (toks.getD 3 []) with
      | some ymd, some t1, some t2 =>
        let sLoc := localMinOf ymd.y ymd.m ymd.d t1.h t1.mi
        let eLoc := localMinOf ymd.y ymd.m ymd.d t2.h t2.mi
        if sLoc < eLoc then
          match (berlinFromLocal ymd.y sLoc).single,
                (berlinFromLocal ymd.y eLoc).single with
          | some o1, some o2 => .ok ⟨⟨sLoc - o1, o1⟩, ⟨eLoc - o2, o2⟩⟩
          | _, _ => .error
        else .panic
      | _, _, _ => .error

mutual
/-- An HTML node as exposed by the select crate: an element with a tag
name, attributes and children, or a text node.  Children are a mutually
inductive forest so that document traversals are structurally
recursive. -/
inductive HNode where
  | elem (tag : String) (attrs : List (String × String)) (children : HForest)
  | txt (s : String)
deriving Repr
/-- A list of sibling HTML nodes. -/
inductive HForest where
  | nil
  | cons (n : HNode) (f : HForest)
deriving Repr
end

/-- Children of a node (text nodes have none). -/
def kids : HNode → HForest
  | .elem _ _ ch => ch
  | .txt _ => .nil

/-- First attribute value for a key (select `Node::attr`). -/
def attrLookup (k : String) : List (String × String) → Option String
  | [] => none
  | (a, v) :: rest => if a = k then some v else attrLookup k rest

/-- select `Node::attr` on a node. -/
def getAttr (n : HNode) (k : String) : Option String :=
  match n with
  | .elem _ attrs _ => attrLookup k attrs
  | .txt _ => none

/-- Split at every whitespace character, keeping empty pieces. -/
def splitWs : List Char → List (List Char)
  | [] => [[]]
  | c :: cs =>
    if c.isWhitespace then [] :: splitWs cs
    else
      match splitWs cs with
      | [] => [[c]]
      | t :: ts => (c :: t) :: ts

/-- select's `Class` predicate: the node is an element whose `class`
attribute, split on whitespace (Rust `split_whitespace`), contains the
given class name. -/
def hasClass (c : String) (n : HNode) : Bool :=
  match getAttr n "class" with
  | some v => ((splitWs v.data).filter (fun w => ¬w.isEmpty)).contains c.data
  | none => false

/-- select's `Name` predicate: the node is an element with this tag. -/
def isName (t : String) (n : HNode) : Bool :=
  match n with
  | .elem tag _ _ => tag = t
  | .txt _ => false

mutual
/-- All nodes satisfying a predicate, in document (preorder) traversal
order (select `Document::find` / `Node::find`). -/
def findAllN (p : HNode → Bool) : HNode → List HNode
  | .txt s => if p (.txt s) then [.txt s] else []
  | .elem t a ch =>
    (if p (.elem t a ch) then [.elem t a ch] else []) ++ findAllF p ch
/-- Forest version of `findAllN`. -/
def findAllF (p : HNode → Bool) : HForest → List HNode
  | .nil => []
  | .cons n f => findAllN p n ++ findAllF p f
end

mutual
/-- All nodes satisfying `p` that have a proper ancestor satisfying `q`
(select's `Descendant` predicate), in document order; `anc` records
whether some ancestor of the current subtree satisfies `q`. -/
def findDescN (q p : HNode → Bool) (anc : Bool) : HNode → List HNode
  | .txt s => if anc && p (.txt s) then [.txt s] else []
  | .elem t a ch =>
    (if anc && p (.elem t a ch) then [.elem t a ch] else []) ++
    findDescF q p (anc || q (.elem t a ch)) ch
/-- Forest version of `findDescN`. -/
def findDescF (q p : HNode → Bool) (anc : Bool) : HForest → List HNode
  | .nil => []
  | .cons n f => findDescN q p anc n ++ findDescF q p anc f
end

mutual
/-- Concatenated text of all descendant text nodes (select
`Node::text`). -/
def nodeTextN : HNode → String
  | .txt s => s
  | .elem _ _ ch => nodeTextF ch
/-- Forest version of `nodeTextN`. -/
def nodeTextF : HForest → String
  | .nil => ""
  | .cons n f => nodeTextN n ++ nodeTextF f
end

/-- Rust `str::trim`: drop leading and trailing whitespace. -/
def trimChars (cs : List Char) : List Char :=
  ((cs.dropWhile Char.isWhitespace).reverse.dropWhile Char.isWhitespace).reverse

/-- Trimmed text of a node, as a string. -/
def trimmedText (n : HNode) : String := String.mk (trimChars (nodeTextN n).data)

/-- Does the pattern (first argument) start the list (second argument)? -/
def startsWithL : List Char → List Char → Bool
  | [], _ => true
  | _ :: _, [] => false
  | p :: ps, c :: cs => if p = c then startsWithL ps cs else false

/-- The fixed id marker removed from session anchors. -/
def linkPat : List Char := "link_to_details_".data

/-- One step bound by fuel (always called with enough fuel): Rust
`str::replace(pat, "")` removes every non-overlapping occurrence of the
pattern, scanning left to right. -/
def stripLinksF : Nat → List Char → List Char
  | 0, cs => cs
  | _, [] => []
  | fuel+1, c :: rest =>
    if startsWithL linkPat (c :: rest) then
      stripLinksF fuel ((c :: rest).drop linkPat.length)
    else c :: stripLinksF fuel rest

/-- Rust `s.replace("link_to_details_", "")`. -/
def stripLinks (s : String) : String := String.mk (stripLinksF s.data.length s.data)

/-- One session occurrence: id plus parsed, zone-resolved timespan. -/
structure CourseEvent where
  id : String
  timespan : DateTimeSpan
deriving DecidableEq, Repr

/-- A course: display name plus occurrences in document order. -/
structure Course where
  name : String
  events : List CourseEvent
deriving DecidableEq, Repr

/-- `Course::name_from_document`: the first h1 element nested inside a
`subc`-classed container; missing heading is an `expect` panic. -/
def Course.name_from_document (doc : HForest) : PRes String :=
  match findDescF (hasClass "subc") (isName "h1") false doc with
  | [] => .panic
  | n :: _ => .ok (trimmedText n)

/-- Loop body of `CourseEvent::all_from_document` over the found
`link_to_details` nodes: for each node, the first `course_date_time`
descendant (`unwrap` panic when absent) provides the text for
`parse_timespan` (whose `Err` propagates), and the `id` attribute
(`unwrap` panic when absent) provides the occurrence id after removing
every occurrence of `link_to_details_`. -/
def eventsFromNodes : List HNode → PRes (List CourseEvent)
  | [] => .ok []
  | n :: ns =>
    match (findAllF (hasClass "course_date_time") (kids n)).head? with
    | none => .panic
    | some dateNode =>
      match parse_timespan (trimmedText dateNode) with
      | .panic => .panic
      | .error => .error
      | .ok span =>
        match getAttr n "id" with
        | none => .panic
        | some idv =>
          match eventsFromNodes ns with
          | .panic => .panic
          | .error => .error
          | .ok evs => .ok (⟨stripLinks idv, span⟩ :: evs)

/-- `CourseEvent::all_from_document`. -/
def CourseEvent.all_from_document (doc : HForest) : PRes (List CourseEvent) :=
  eventsFromNodes (findAllF (hasClass "link_to_details") doc)

/-- `Course::from_document`: name first, then the occurrences. -/
def Course.from_document (doc : HForest) : PRes Course :=
  match Course.name_from_document doc with
  | .panic => .panic
  | .error => .error
  | .ok nm =>
    match CourseEvent.all_from_document doc with
    | .panic => .panic
    | .error => .error
    | .ok evs => .ok ⟨nm, evs⟩

/-- An ics crate `Property`: key, value and parameters. -/
structure IcsProperty where
  key : String
  value : String
  parameters : List (String × String)
deriving DecidableEq, Repr

/-- An ics crate `Event`: `Event::new(uid, dtstamp)` plus the properties
pushed onto it, in insertion order. -/
structure IcsEvent where
  uid : String
  dtstamp : String
  props : List IcsProperty
deriving DecidableEq, Repr

/-- An ics crate `ICalendar`: fixed version and product id plus events in
insertion order. -/
structure ICalendar where
  version : String
  prodid : String
  events : List IcsEvent
deriving DecidableEq, Repr

/-- First property with the given key of an event. -/
def IcsEvent.findProp (e : IcsEvent) (k : String) : Option IcsProperty :=
  e.props.find? (fun pr => pr.key == k)

/-- Two zero-padded decimal digits. -/
def pad2 (n : Nat) : List Char := [dChar (n / 10), dChar n]

/-- Four zero-padded decimal digits (full decimal form beyond 9999). -/
def pad4 (n : Nat) : List Char :=
  if n < 10000 then [dChar (n / 1000), dChar (n / 100), dChar (n / 10), dChar n]
  else (Nat.repr n).data

/-- chrono "%Y": the year, zero-padded to four digits, with a sign when
negative. -/
def pad4i (y : Int) : List Char :=
  if y < 0 then '-' :: pad4 y.natAbs else pad4 y.toNat

/-- chrono `format("%Y%m%dT%H%M%SZ")` of the UTC naive date-time of an
instant given in minutes (the pipeline only produces whole minutes, so
the seconds field is always 00). -/
def fmtCompact (t : Int) : String :=
  let days := Int.fdiv t 1440
  let rem := (Int.emod t 1440).toNat
  let c := civilFromDays days
  String.mk (pad4i c.1 ++ pad2 c.2.1.toNat ++ pad2 c.2.2.toNat ++ 'T' ::
    (pad2 (rem / 60) ++ pad2 (rem % 60) ++ ['0', '0', 'Z']))

/-- Body of the loop in `Course::to_ical`: one `Event` per occurrence.
`Event::new(event.id, start_date)` sets UID and DTSTAMP to the
occurrence id and the compact UTC form of the occurrence start; the
pushed properties follow in source order.  Note that `RELTYPE:CHILD` is
pushed as its own property of the event, not as a parameter of the
`RELATED-TO` property. -/
def mkCalEvent (nm firstId : String) (ev : CourseEvent) : IcsEvent :=
  let sd := fmtCompact ev.timespan.start.utc
  let ed := fmtCompact ev.timespan.stop.utc
  { uid := ev.id
    dtstamp := sd
    props := [⟨"DTSTART", sd, []⟩, ⟨"DTEND", ed, []⟩, ⟨"SUMMARY", nm, []⟩,
              ⟨"RELATED-TO", firstId, []⟩, ⟨"RELTYPE", "CHILD", []⟩] }

/-- `Course::to_ical`: panics (`iter().next().unwrap()`) on a course
with no occurrences; otherwise builds the calendar with fixed version
"2.0" and product id "ics-rs", one event per occurrence in order, all
related to the first occurrence's id. -/
def Course.to_ical (c : Course) : PRes ICalendar :=
  match c.events with
  | [] => .panic
  | e0 :: _ => .ok ⟨"2.0", "ics-rs", c.events.map (mkCalEvent c.name e0.id)⟩

instance : Inhabited Instant := ⟨⟨0, 0⟩⟩
instance : Inhabited DateTimeSpan := ⟨⟨default, default⟩⟩
instance : Inhabited CourseEvent := ⟨⟨"", default⟩⟩
instance : Inhabited IcsEvent := ⟨⟨"", "", []⟩⟩
instance : Inhabited IcsProperty := ⟨⟨"", "", []⟩⟩
instance : Inhabited ICalendar := ⟨⟨"", "", []⟩⟩

/-- Is the result an `ok`? -/
def PRes.isOk : PRes α → Bool
  | .ok _ => true
  | _ => false

/-- The date token "DD.MM.YYYY" of a schedule line. -/
def dateTok (y m d : Nat) : List Char := pad2 d ++ '.' :: (pad2 m ++ '.' :: pad4 y)

/-- The time token "HH:MM" of a schedule line. -/
def timeTok (h mi : Nat) : List Char := pad2 h ++ ':' :: pad2 mi

/-- A schedule line assembled from a free leading part and four
space-separated tokens (date, start time, separator, end time). -/
def mkLine (p d t1 sep t2 : List Char) : String :=
  String.mk (p ++ (d ++ ' ' :: (t1 ++ ' ' :: (sep ++ ' ' :: t2))))

/-- The computation `parse_timespan` performs once the three used tokens
are fixed: parse date and times, require a strictly increasing span
(panic otherwise) and resolve both endpoints in the Berlin zone. -/
def coreParse (dTok t1Tok t2Tok : List Char) : PRes DateTimeSpan :=
  match parseDateDMY dTok, parseTimeHM t1Tok, parseTimeHM t2Tok with
  | some ymd, some t1, some t2 =>
    let sLoc := localMinOf ymd.y ymd.m ymd.d t1.h t1.mi
    let eLoc := localMinOf ymd.y ymd.m ymd.d t2.h t2.mi
    if sLoc < eLoc then
      match (berlinFromLocal ymd.y sLoc).single,
            (berlinFromLocal ymd.y eLoc).single with
      | some o1, some o2 => .ok ⟨⟨sLoc - o1, o1⟩, ⟨eLoc - o2, o2⟩⟩
      | _, _ => .error
    else .panic
  | _, _, _ => .error

/-- The first `course_date_time` descendant of a details-link node
(dummy text node when absent). -/
def dateNodeOf (n : HNode) : HNode :=
  (findAllF (hasClass "course_date_time") (kids n)).headD (.txt "")

/-- The occurrence a valid details-link node yields. -/
def evOf (n : HNode) : CourseEvent :=
  ⟨stripLinks ((getAttr n "id").getD ""),
   (parse_timespan (trimmedText (dateNodeOf n))).okD default⟩

/-- A details-link node on which extraction succeeds: it has a
`course_date_time` descendant whose trimmed text parses, and an `id`
attribute. -/
def goodLink (n : HNode) : Prop :=
  (findAllF (hasClass "course_date_time") (kids n)).isEmpty = false ∧
  (parse_timespan (trimmedText (dateNodeOf n))).isOk = true ∧
  (getAttr n "id").isSome = true

/-- A single-occurrence course used to exhibit the shape of the built
calendar events. -/
def c2demo : Course := ⟨"Demo", [⟨"o1", ⟨⟨600, 60⟩, ⟨660, 60⟩⟩⟩]⟩

/-- A course page whose only details-link node has an id attribute
containing the marker twice. -/
def c3doc : HForest :=
  .cons (.elem "div" [("class", "subc")]
    (.cons (.elem "h1" [] (.cons (.txt "Demo") .nil)) .nil))
  (.cons (.elem "a" [("class", "link_to_details"),
                     ("id", "link_to_details_link_to_details_x")]
    (.cons (.elem "span" [("class", "course_date_time")]
      (.cons (.txt "Mo, 21.10.2019 10:00 - 13:00") .nil)) .nil))
  .nil)

/-- A course page with two details-link nodes carrying the same id
attribute. -/
def c8doc : HForest :=
  .cons (.elem "div" [("class", "subc")]
    (.cons (.elem "h1" [] (.cons (.txt "Demo") .nil)) .nil))
  (.cons (.elem "a" [("class", "link_to_details"), ("id", "link_to_details_a")]
    (.cons (.elem "span" [("class", "course_date_time")]
      (.cons (.txt "Mo, 21.10.2019 10:00 - 13:00") .nil)) .nil))
  (.cons (.elem "a" [("class", "link_to_details"), ("id", "link_to_details_a")]
    (.cons (.elem "span" [("class", "course_date_time")]
      (.cons (.txt "Mo, 21.10.2019 10:00 - 13:00") .nil)) .nil))
  .nil))

/-- A well-formed one-session course page used as a witness document. -/
def demoDoc : HForest :=
  .cons (.elem "div" [("class", "subc")]
    (.cons (.elem "h1" [] (.cons (.txt "  OC 1 Vorlesung ") .nil)) .nil))
  (.cons (.elem "a" [("class", "link_to_details"), ("id", "link_to_details_12345")]
    (.cons (.elem "span" [("class", "course_date_time")]
      (.cons (.txt " Mo, 21.10.2019 10:00 - 13:00 ") .nil)) .nil))
  .nil)

instance (n : HNode) : Decidable (goodLink n) :=
  inferInstanceAs (Decidable (
    (findAllF (hasClass "course_date_time") (kids n)).isEmpty = false ∧
    (parse_timespan (trimmedText (dateNodeOf n))).isOk = true ∧
    (getAttr n "id").isSome = true))

/-- The calendar built from `c2demo`. -/
def c2cal : ICalendar :=
  ⟨"2.0", "ics-rs", c2demo.events.map (mkCalEvent "Demo" "o1")⟩

/-! Helper lemmas about the character-level scanners. -/

theorem dChar_isDigit (n : Nat) : (dChar n).isDigit = true := by
  have h : n % 10 < 10 := Nat.mod_lt n (by decide)
  unfold dChar
  set k := n % 10 with hk
  interval_cases k <;> decide

theorem digitVal_dChar (n : Nat) : digitVal (dChar n) = n % 10 := by
  have h : n % 10 < 10 := Nat.mod_lt n (by decide)
  unfold dChar digitVal
  set k := n % 10 with hk
  interval_cases k <;> decide

theorem dChar_not_ws (n : Nat) : (dChar n).isWhitespace = false := by
  have h : n % 10 < 10 := Nat.mod_lt n (by decide)
  unfold dChar
  set k := n % 10 with hk
  interval_cases k <;> decide

theorem dChar_ne_of_not_digit (n : Nat) (c : Char) (h : c.isDigit = false) :
    dChar n ≠ c := by
  intro he
  have hd := dChar_isDigit n
  rw [he, h] at hd
  exact Bool.false_ne_true hd

theorem skipWs_cons_of_not_ws (c : Char) (cs : List Char)
    (h : c.isWhitespace = false) : skipWs (c :: cs) = c :: cs := by
  simp [skipWs, h]

theorem takeDigits_cons_digit (w : Nat) (c : Char) (cs : List Char)
    (h : c.isDigit = true) :
    takeDigits (w + 1) (c :: cs) =
      (digitVal c :: (takeDigits w cs).1, (takeDigits w cs).2) := by
  simp [takeDigits, h]

theorem scanNum_pad2 (n : Nat) (h : n < 100) (rest : List Char) :
    scanNum 2 (pad2 n ++ rest) = some (n, rest) := by
  have h1 := dChar_isDigit (n / 10)
  have h2 := dChar_isDigit n
  simp [pad2, scanNum, takeDigits, h1, h2, digitsVal, digitVal_dChar]
  omega

theorem scanNum_pad4 (n : Nat) (h : n < 10000) (rest : List Char) :
    scanNum 4 (pad4 n ++ rest) = some (n, rest) := by
  have h1 := dChar_isDigit (n / 1000)
  have h2 := dChar_isDigit (n / 100)
  have h3 := dChar_isDigit (n / 10)
  have h4 := dChar_isDigit n
  simp [pad4, if_pos h, scanNum, takeDigits, h1, h2, h3, h4, digitsVal,
    digitVal_dChar]
  omega

theorem pad2_head_digit (n : Nat) (rest : List Char) :
    ∃ c cs, pad2 n ++ rest = c :: cs ∧ c.isDigit = true ∧
      c.isWhitespace = false ∧ c ≠ '-' ∧ c ≠ '+' :=
  ⟨dChar (n / 10), dChar n :: rest, by simp [pad2], dChar_isDigit _,
    dChar_not_ws _, dChar_ne_of_not_digit _ _ (by decide),
    dChar_ne_of_not_digit _ _ (by decide)⟩

theorem scanNumWs_pad2 (n : Nat) (h : n < 100) (rest : List Char) :
    scanNumWs 2 (pad2 n ++ rest) = some (n, rest) := by
  obtain ⟨c, cs, he, _, hw, _, _⟩ := pad2_head_digit n rest
  rw [scanNumWs, he, skipWs_cons_of_not_ws _ _ hw, ← he, scanNum_pad2 n h rest]

theorem scanYear_pad4 (n : Nat) (h : n < 10000) (rest : List Char) :
    scanYear (pad4 n ++ rest) = some ((n : Int), rest) := by
  have hw := dChar_not_ws (n / 1000)
  have hm := dChar_ne_of_not_digit (n / 1000) '-' (by decide)
  have hp := dChar_ne_of_not_digit (n / 1000) '+' (by decide)
  have he : pad4 n ++ rest = dChar (n / 1000) :: (dChar (n / 100) ::
      (dChar (n / 10) :: (dChar n :: rest))) := by
    simp [pad4, if_pos h]
  rw [scanYear, he, skipWs_cons_of_not_ws _ _ hw]
  simp only [if_neg hm, if_neg hp]
  rw [← he, scanNum_pad4 n h rest]
  rfl

theorem expectChar_cons (c : Char) (cs : List Char) :
    expectChar c (c :: cs) = some cs := by
  simp [expectChar]

theorem parseDateDMY_dateTok (y m d : Nat) (hy : y < 10000) (hm : m < 100)
    (hd : d < 100) (hv : dateValid (y : Int) (m : Int) (d : Int) = true) :
    parseDateDMY (dateTok y m d) = some ⟨(y : Int), (m : Int), (d : Int)⟩ := by
  have e1 := scanNumWs_pad2 d hd ('.' :: (pad2 m ++ '.' :: pad4 y))
  have e2 := scanNumWs_pad2 m hm ('.' :: pad4 y)
  have e3 : scanYear (pad4 y) = some ((y : Int), []) := by
    have h := scanYear_pad4 y hy []
    simpa using h
  simp [parseDateDMY, dateTok, e1, e2, e3, expectChar_cons, hv]

theorem parseTimeHM_timeTok (h mi : Nat) (hh : h < 24) (hm : mi < 60) :
    parseTimeHM (timeTok h mi) = some ⟨h, mi⟩ := by
  have e1 := scanNumWs_pad2 h (by omega) (':' :: pad2 mi)
  have e2 : scanNumWs 2 (pad2 mi) = some (mi, []) := by
    have h2 := scanNumWs_pad2 mi (by omega) []
    simpa using h2
  simp [parseTimeHM, timeTok, e1, e2, expectChar_cons, hh, hm]

theorem splitSp_append_sep (a r : List Char) (h : ' ' ∉ a) :
    splitSp (a ++ ' ' :: r) = a :: splitSp r := by
  induction a with
  | nil => simp [splitSp]
  | cons c cs ih =>
    simp only [List.mem_cons, not_or] at h
    have hc : c ≠ ' ' := fun he => h.1 he.symm
    rw [List.cons_append]
    simp only [splitSp, if_neg hc, ih h.2]

theorem splitSp_no_sep (a : List Char) (h : ' ' ∉ a) : splitSp a = [a] := by
  induction a with
  | nil => rfl
  | cons c cs ih =>
    simp only [List.mem_cons, not_or] at h
    have hc : c ≠ ' ' := fun he => h.1 he.symm
    simp only [splitSp, if_neg hc, ih h.2]

theorem dropBytes_append (p : List Char) :
    ∀ r, dropBytes (utf8Len p) (p ++ r) = some r := by
  induction p with
  | nil => intro r; simp [utf8Len, dropBytes]
  | cons c cs ih =>
    intro r
    have h1 : 0 < c.utf8Size := Char.utf8Size_pos c
    have hk : utf8Len (c :: cs) = (c.utf8Size + utf8Len cs - 1) + 1 := by
      simp only [utf8Len]; omega
    rw [hk, List.cons_append]
    simp only [dropBytes]
    rw [if_pos (by omega)]
    have h2 : c.utf8Size + utf8Len cs - 1 + 1 - c.utf8Size = utf8Len cs := by
      omega
    rw [h2]
    exact ih r

theorem dropBytes_short (cs : List Char) :
    ∀ n, utf8Len cs < n → dropBytes n cs = none := by
  induction cs with
  | nil =>
    intro n h
    cases n with
    | zero => omega
    | succ k => rfl
  | cons c rest ih =>
    intro n h
    cases n with
    | zero => omega
    | succ k =>
      simp only [dropBytes]
      by_cases hle : c.utf8Size ≤ k + 1
      · rw [if_pos hle]
        apply ih
        simp only [utf8Len] at h
        omega
      · rw [if_neg hle]

theorem parse_timespan_mkLine (p d t1 sep t2 : List Char) (hp : utf8Len p = 4)
    (hd : ' ' ∉ d) (ht1 : ' ' ∉ t1) (hs : ' ' ∉ sep) (ht2 : ' ' ∉ t2) :
    parse_timespan (mkLine p d t1 sep t2) = coreParse d t1 t2 := by
  have hsp : splitSp (d ++ ' ' :: (t1 ++ ' ' :: (sep ++ ' ' :: t2))) =
      [d, t1, sep, t2] := by
    rw [splitSp_append_sep _ _ hd, splitSp_append_sep _ _ ht1,
        splitSp_append_sep _ _ hs, splitSp_no_sep _ ht2]
  have hdrop : dropBytes 4 (mkLine p d t1 sep t2).data =
      some (d ++ ' ' :: (t1 ++ ' ' :: (sep ++ ' ' :: t2))) := by
    have h := dropBytes_append p (d ++ ' ' :: (t1 ++ ' ' :: (sep ++ ' ' :: t2)))
    rw [hp] at h
    simpa [mkLine] using h
  simp only [parse_timespan, hdrop, hsp, List.length_cons, List.length_nil,
    List.getD, List.get?]
  norm_num [coreParse]

theorem sp_ne_dChar (n : Nat) : ' ' ≠ dChar n :=
  fun he => dChar_ne_of_not_digit n ' ' (by decide) he.symm

theorem sp_not_mem_dateTok (y m d : Nat) (hy : y < 10000) :
    ' ' ∉ dateTok y m d := by
  simp [dateTok, pad2, pad4, if_pos hy, sp_ne_dChar]

theorem sp_not_mem_timeTok (h mi : Nat) : ' ' ∉ timeTok h mi := by
  simp [timeTok, pad2, sp_ne_dChar]

theorem daysInMonth_le (y m : Int) : daysInMonth y m ≤ 31 := by
  unfold daysInMonth
  split_ifs <;> omega

theorem dateValid_bounds (y m d : Int) (hv : dateValid y m d = true) :
    1 ≤ m ∧ m ≤ 12 ∧ 1 ≤ d ∧ d ≤ 31 := by
  have h31 := daysInMonth_le y m
  simp only [dateValid, Bool.and_eq_true, decide_eq_true_eq] at hv
  omega

theorem coreParse_wellformed (y m d h1 mi1 h2 mi2 : Nat) (hy : y < 10000)
    (hv : dateValid (y : Int) (m : Int) (d : Int) = true)
    (hh1 : h1 < 24) (hm1 : mi1 < 60) (hh2 : h2 < 24) (hm2 : mi2 < 60)
    (hlt : h1 * 60 + mi1 < h2 * 60 + mi2) (o1 o2 : Int)
    (hs : (berlinFromLocal (y : Int)
      (localMinOf (y : Int) (m : Int) (d : Int) h1 mi1)).single = some o1)
    (he : (berlinFromLocal (y : Int)
      (localMinOf (y : Int) (m : Int) (d : Int) h2 mi2)).single = some o2) :
    coreParse (dateTok y m d) (timeTok h1 mi1) (timeTok h2 mi2) =
      .ok ⟨⟨localMinOf (y : Int) (m : Int) (d : Int) h1 mi1 - o1, o1⟩,
           ⟨localMinOf (y : Int) (m : Int) (d : Int) h2 mi2 - o2, o2⟩⟩ := by
  obtain ⟨hm1b, hm2b, hd1b, hd2b⟩ := dateValid_bounds _ _ _ hv
  have hm : m < 100 := by omega
  have hd : d < 100 := by omega
  have hcmp : localMinOf (y : Int) (m : Int) (d : Int) h1 mi1 <
      localMinOf (y : Int) (m : Int) (d : Int) h2 mi2 := by
    simp only [localMinOf]
    omega
  simp only [coreParse, parseDateDMY_dateTok y m d hy hm hd hv,
    parseTimeHM_timeTok h1 mi1 hh1 hm1, parseTimeHM_timeTok h2 mi2 hh2 hm2]
  rw [if_pos hcmp, hs, he]

/-- Claim C4 (amended): for every well-formed schedule line built from a
4-byte leading part, a valid date "DD.MM.YYYY" and times "HH:MM" with
start strictly before end on the same calendar day, provided both local
date-times resolve to a single instant in the Berlin zone (they fall
neither in the spring-forward gap nor in the fall-back fold),
`parse_timespan` succeeds and the resulting span, converted back to
local Berlin time, equals the parsed date-times exactly. -/
theorem parse_timespan_roundtrip (p : List Char) (hp : utf8Len p = 4)
    (y m d h1 mi1 h2 mi2 : Nat) (hy : y < 10000)
    (hv : dateValid (y : Int) (m : Int) (d : Int) = true)
    (hh1 : h1 < 24) (hm1 : mi1 < 60) (hh2 : h2 < 24) (hm2 : mi2 < 60)
    (hlt : h1 * 60 + mi1 < h2 * 60 + mi2) (o1 o2 : Int)
    (hs : (berlinFromLocal (y : Int)
      (localMinOf (y : Int) (m : Int) (d : Int) h1 mi1)).single = some o1)
    (he : (berlinFromLocal (y : Int)
      (localMinOf (y : Int) (m : Int) (d : Int) h2 mi2)).single = some o2) :
    parse_timespan (mkLine p (dateTok y m d) (timeTok h1 mi1) ['-']
        (timeTok h2 mi2)) =
      .ok ⟨⟨localMinOf (y : Int) (m : Int) (d : Int) h1 mi1 - o1, o1⟩,
           ⟨localMinOf (y : Int) (m : Int) (d : Int) h2 mi2 - o2, o2⟩⟩ ∧
    naiveLocal ⟨localMinOf (y : Int) (m : Int) (d : Int) h1 mi1 - o1, o1⟩ =
      localMinOf (y : Int) (m : Int) (d : Int) h1 mi1 ∧
    naiveLocal ⟨localMinOf (y : Int) (m : Int) (d : Int) h2 mi2 - o2, o2⟩ =
      localMinOf (y : Int) (m : Int) (d : Int) h2 mi2 := by
  refine ⟨?_, ?_, ?_⟩
  · rw [parse_timespan_mkLine p _ _ _ _ hp (sp_not_mem_dateTok y m d hy)
      (sp_not_mem_timeTok h1 mi1) (by decide) (sp_not_mem_timeTok h2 mi2)]
    exact coreParse_wellformed y m d h1 mi1 h2 mi2 hy hv hh1 hm1 hh2 hm2 hlt
      o1 o2 hs he
  · simp only [naiveLocal]
    omega
  · simp only [naiveLocal]
    omega

/-- Witness for C4 at the concrete line "Mo, 21.10.2019 10:00 - 13:00"
(both endpoints resolve to CEST, UTC offset 120 minutes). -/
theorem parse_timespan_roundtrip_witness :
    parse_timespan (mkLine "Mo, ".data (dateTok 2019 10 21) (timeTok 10 0)
        ['-'] (timeTok 13 0)) =
      .ok ⟨⟨localMinOf ((2019 : Nat) : Int) ((10 : Nat) : Int)
              ((21 : Nat) : Int) 10 0 - 120, 120⟩,
           ⟨localMinOf ((2019 : Nat) : Int) ((10 : Nat) : Int)
              ((21 : Nat) : Int) 13 0 - 120, 120⟩⟩ ∧
    naiveLocal ⟨localMinOf ((2019 : Nat) : Int) ((10 : Nat) : Int)
        ((21 : Nat) : Int) 10 0 - 120, 120⟩ =
      localMinOf ((2019 : Nat) : Int) ((10 : Nat) : Int) ((21 : Nat) : Int)
        10 0 ∧
    naiveLocal ⟨localMinOf ((2019 : Nat) : Int) ((10 : Nat) : Int)
        ((21 : Nat) : Int) 13 0 - 120, 120⟩ =
      localMinOf ((2019 : Nat) : Int) ((10 : Nat) : Int) ((21 : Nat) : Int)
        13 0 :=
  parse_timespan_roundtrip "Mo, ".data (by decide) 2019 10 21 10 0 13 0
    (by decide) (by decide) (by decide) (by decide) (by decide) (by decide)
    (by decide) 120 120 (by decide) (by decide)

/-- Counterexample to C4 as stated: the well-formed line
"So, 31.03.2019 02:30 - 03:30" has start strictly before end on the same
calendar day, yet parsing fails, because 02:30 falls in the Berlin
spring-forward gap of that date and cannot be resolved. -/
theorem c4_gap_line_fails :
    parse_timespan "So, 31.03.2019 02:30 - 03:30" = PRes.error := by decide

/-- Claim C9 (amended): the parse result depends only on the date, start
and end tokens: any two lines whose leading parts occupy exactly 4 bytes
and whose space-free separator tokens may differ parse identically. -/
theorem parse_timespan_token_indep (p1 p2 d t1 sep1 sep2 t2 : List Char)
    (hp1 : utf8Len p1 = 4) (hp2 : utf8Len p2 = 4)
    (hd : ' ' ∉ d) (ht1 : ' ' ∉ t1) (hs1 : ' ' ∉ sep1) (hs2 : ' ' ∉ sep2)
    (ht2 : ' ' ∉ t2) :
    parse_timespan (mkLine p1 d t1 sep1 t2) =
      parse_timespan (mkLine p2 d t1 sep2 t2) := by
  rw [parse_timespan_mkLine p1 d t1 sep1 t2 hp1 hd ht1 hs1 ht2,
      parse_timespan_mkLine p2 d t1 sep2 t2 hp2 hd ht1 hs2 ht2]

/-- Witness for C9: two lines with different weekday parts and different
separator tokens parse to the same result. -/
theorem parse_timespan_token_indep_witness :
    parse_timespan (mkLine "Mo, ".data "21.10.2019".data "10:00".data
        "-".data "13:00".data) =
      parse_timespan (mkLine "Di, ".data "21.10.2019".data "10:00".data
        "x".data "13:00".data) :=
  parse_timespan_token_indep "Mo, ".data "Di, ".data "21.10.2019".data
    "10:00".data "-".data "x".data "13:00".data (by decide) (by decide)
    (by decide) (by decide) (by decide) (by decide) (by decide)

/-- Counterexample to C9 as stated: two lines that agree on the date,
start-time and end-time tokens and differ only in the 4-character
weekday part parse differently, because the parser discards the first 4
bytes, not the first 4 characters, and a multi-byte weekday part shifts
the slice. -/
theorem c9_bytes_not_chars :
    parse_timespan "Mo, 21.10.2019 10:00 - 13:00" ≠
      parse_timespan "öö, 21.10.2019 10:00 - 13:00" := by decide

/-- Claim C1 (amended): for a line whose remainder after the 4-byte
leading part splits into at least 4 tokens, an invalid date or time
literal produces a returned ParseError (and no span); but a line whose
parsed end is not strictly after its start makes `parse_timespan` panic
instead of returning an error. -/
theorem parse_timespan_malformed (s : String) (rest : List Char)
    (hdrop : dropBytes 4 s.data = some rest)
    (hlen : 4 ≤ (splitSp rest).length) :
    ((parseDateDMY ((splitSp rest).getD 0 []) = none ∨
      parseTimeHM ((splitSp rest).getD 1 []) = none ∨
      parseTimeHM ((splitSp rest).getD 3 []) = none) →
        parse_timespan s = PRes.error) ∧
    (∀ ymd t1 t2, parseDateDMY ((splitSp rest).getD 0 []) = some ymd →
      parseTimeHM ((splitSp rest).getD 1 []) = some t1 →
      parseTimeHM ((splitSp rest).getD 3 []) = some t2 →
      localMinOf ymd.y ymd.m ymd.d t2.h t2.mi ≤
        localMinOf ymd.y ymd.m ymd.d t1.h t1.mi →
      parse_timespan s = PRes.panic) := by
  have hnot : ¬ (splitSp rest).length < 4 := by omega
  constructor
  · intro hbad
    rcases h0 : parseDateDMY ((splitSp rest).getD 0 []) with _ | ymd
    · rw [List.getD_eq_getElem?_getD] at h0
      simp [parse_timespan, hdrop, hnot, h0]
    · rcases h1 : parseTimeHM ((splitSp rest).getD 1 []) with _ | t1
      · rw [List.getD_eq_getElem?_getD] at h0 h1
        simp [parse_timespan, hdrop, hnot, h0, h1]
      · rcases h3 : parseTimeHM ((splitSp rest).getD 3 []) with _ | t2
        · rw [List.getD_eq_getElem?_getD] at h0 h1 h3
          simp [parse_timespan, hdrop, hnot, h0, h1, h3]
        · exfalso
          rcases hbad with hb | hb | hb
          · rw [h0] at hb; exact Option.noConfusion hb
          · rw [h1] at hb; exact Option.noConfusion hb
          · rw [h3] at hb; exact Option.noConfusion hb
  · intro ymd t1 t2 h0 h1 h3 hle
    have hnlt : ¬ (localMinOf ymd.y ymd.m ymd.d t1.h t1.mi <
        localMinOf ymd.y ymd.m ymd.d t2.h t2.mi) := by omega
    rw [List.getD_eq_getElem?_getD] at h0 h1 h3
    simp [parse_timespan, hdrop, hnot, h0, h1, h3, hnlt]

/-- Witness for C1: a bad time literal returns an error; a reversed span
panics. -/
theorem parse_timespan_malformed_witness :
    parse_timespan "Mo, 21.10.2019 25:00 - 26:00" = PRes.error ∧
    parse_timespan "Mo, 21.10.2019 13:00 - 10:00" = PRes.panic := by
  constructor
  · exact (parse_timespan_malformed "Mo, 21.10.2019 25:00 - 26:00"
      "21.10.2019 25:00 - 26:00".data (by decide) (by decide)).1
      (Or.inr (Or.inl (by decide)))
  · exact (parse_timespan_malformed "Mo, 21.10.2019 13:00 - 10:00"
      "21.10.2019 13:00 - 10:00".data (by decide) (by decide)).2
      ⟨2019, 10, 21⟩ ⟨13, 0⟩ ⟨10, 0⟩ (by decide) (by decide) (by decide)
      (by decide)

/-- Counterexample to C1 as stated: the malformed line whose end is
before its start makes `parse_timespan` panic (an `unwrap` on the span
constructor), not return a ParseError. -/
theorem c1_panic_not_error :
    parse_timespan "Mo, 21.10.2019 13:00 - 10:00" = PRes.panic ∧
    (PRes.panic : PRes DateTimeSpan) ≠ PRes.error := by decide

/-- Claim C10: `parse_timespan` is not total: every line shorter than 4
bytes panics (byte-slice out of bounds), and every line whose remainder
after the 4-byte slice splits into fewer than 4 tokens panics (vector
index out of bounds). -/
theorem parse_timespan_short_panics (s : String) :
    (utf8Len s.data < 4 → parse_timespan s = PRes.panic) ∧
    (∀ rest, dropBytes 4 s.data = some rest → (splitSp rest).length < 4 →
      parse_timespan s = PRes.panic) := by
  constructor
  · intro h
    have hd := dropBytes_short s.data 4 h
    simp [parse_timespan, hd]
  · intro rest hdrop hlen
    simp [parse_timespan, hdrop, hlen]

/-- Witness for C10: the empty string and a line with a single token
after the prefix both panic. -/
theorem parse_timespan_short_panics_witness :
    parse_timespan "" = PRes.panic ∧
    parse_timespan "Mo, 21.10.2019" = PRes.panic := by
  constructor
  · exact (parse_timespan_short_panics "").1 (by decide)
  · exact (parse_timespan_short_panics "Mo, 21.10.2019").2
      "21.10.2019".data (by decide) (by decide)

theorem eventsFromNodes_ok (l : List HNode) (h : ∀ n ∈ l, goodLink n) :
    eventsFromNodes l = .ok (l.map evOf) := by
  induction l with
  | nil => rfl
  | cons n ns ih =>
    obtain ⟨h1, h2, h3⟩ := h n (List.mem_cons_self n ns)
    obtain ⟨dn, dns, hdn⟩ : ∃ dn dns,
        findAllF (hasClass "course_date_time") (kids n) = dn :: dns := by
      cases hfa : findAllF (hasClass "course_date_time") (kids n) with
      | nil => rw [hfa] at h1; simp at h1
      | cons a b => exact ⟨a, b, rfl⟩
    have hdno : dateNodeOf n = dn := by simp [dateNodeOf, hdn]
    obtain ⟨sp, hsp⟩ : ∃ sp,
        parse_timespan (trimmedText (dateNodeOf n)) = .ok sp := by
      cases hq : parse_timespan (trimmedText (dateNodeOf n)) with
      | ok sp => exact ⟨sp, rfl⟩
      | panic => rw [hq] at h2; simp [PRes.isOk] at h2
      | error => rw [hq] at h2; simp [PRes.isOk] at h2
    obtain ⟨idv, hidv⟩ := Option.isSome_iff_exists.mp h3
    have ihh := ih (fun x hx => h x (List.mem_cons_of_mem n hx))
    rw [hdno] at hsp
    simp [eventsFromNodes, hdn, hsp, hidv, ihh, evOf, dateNodeOf, PRes.okD]

/-- Claim C3 (amended): for a document whose details-link nodes each
have a date node with parseable text and an id attribute, extraction
succeeds with exactly one occurrence per details-link node, in document
traversal order; each occurrence id is the node's id attribute with
every occurrence of "link_to_details_" removed (Rust `str::replace`,
not a strip of a leading marker only). -/
theorem all_from_document_shape (doc : HForest)
    (h : ∀ n ∈ findAllF (hasClass "link_to_details") doc, goodLink n) :
    CourseEvent.all_from_document doc =
      .ok ((findAllF (hasClass "link_to_details") doc).map evOf) ∧
    ((findAllF (hasClass "link_to_details") doc).map evOf).length =
      (findAllF (hasClass "link_to_details") doc).length := by
  refine ⟨?_, by simp⟩
  rw [CourseEvent.all_from_document]
  exact eventsFromNodes_ok _ h

/-- Witness for C3 at a concrete single-session document. -/
theorem all_from_document_shape_witness :
    CourseEvent.all_from_document demoDoc =
      .ok ((findAllF (hasClass "link_to_details") demoDoc).map evOf) ∧
    ((findAllF (hasClass "link_to_details") demoDoc).map evOf).length =
      (findAllF (hasClass "link_to_details") demoDoc).length :=
  all_from_document_shape demoDoc (by decide)

/-- Counterexample to C3 as stated: a node whose id attribute contains
the marker twice yields the id "x" (every occurrence replaced), not
"link_to_details_x" (leading marker stripped). -/
theorem c3_replace_not_strip :
    (Course.from_document c3doc).mapR (fun c => c.events.map CourseEvent.id) =
      PRes.ok ["x"] ∧ "x" ≠ "link_to_details_x" := by decide

/-- Claim C8 (amended): extraction performs no deduplication: the
occurrence ids are exactly the transformed id attributes in document
order, so they are pairwise distinct precisely when those transformed
attribute values are; a document with repeated attribute values yields
a course with repeated occurrence ids. -/
theorem all_from_document_distinct (doc : HForest)
    (h : ∀ n ∈ findAllF (hasClass "link_to_details") doc, goodLink n)
    (hd : ((findAllF (hasClass "link_to_details") doc).map
        (fun n => stripLinks ((getAttr n "id").getD ""))).Pairwise (· ≠ ·)) :
    ∀ evs, CourseEvent.all_from_document doc = .ok evs →
      (evs.map CourseEvent.id).Pairwise (· ≠ ·) := by
  intro evs hevs
  rw [CourseEvent.all_from_document, eventsFromNodes_ok _ h] at hevs
  injection hevs with hevs
  subst hevs
  simpa [List.map_map, Function.comp, evOf] using hd

/-- Witness for C8 at a concrete single-session document. -/
theorem all_from_document_distinct_witness :
    (([⟨"12345", ⟨⟨26194080, 120⟩, ⟨26194260, 120⟩⟩⟩] :
        List CourseEvent).map CourseEvent.id).Pairwise (· ≠ ·) :=
  all_from_document_distinct demoDoc (by decide) (by decide)
    [⟨"12345", ⟨⟨26194080, 120⟩, ⟨26194260, 120⟩⟩⟩] (by decide)

/-- Counterexample to C8 as stated: a document with two details-link
nodes carrying the same id attribute extracts to a course with two
occurrences of the same id. -/
theorem c8_duplicate_ids :
    (Course.from_document c8doc).mapR (fun c => c.events.map CourseEvent.id) =
      PRes.ok ["a", "a"] ∧
    ¬ (["a", "a"] : List String).Pairwise (· ≠ ·) := by decide

/-- Claim C7: a document with no h1 heading nested in a subc container
makes course extraction panic (the `expect` call), so no Course value,
partial or otherwise, is returned. -/
theorem from_document_no_name_panics (doc : HForest)
    (h : findDescF (hasClass "subc") (isName "h1") false doc = []) :
    Course.from_document doc = PRes.panic := by
  simp [Course.from_document, Course.name_from_document, h]

/-- Witness for C7 at the empty document. -/
theorem from_document_no_name_panics_witness :
    Course.from_document HForest.nil = PRes.panic :=
  from_document_no_name_panics HForest.nil rfl

/-- Claim C6: building the calendar for a course with no occurrences
yields no calendar document (the `iter().next().unwrap()` panics). -/
theorem to_ical_empty_panics (c : Course) (h : c.events = []) :
    Course.to_ical c = PRes.panic := by
  simp [Course.to_ical, h]

/-- Witness for C6 at a concrete empty course. -/
theorem to_ical_empty_panics_witness :
    Course.to_ical ⟨"Leer", []⟩ = PRes.panic :=
  to_ical_empty_panics ⟨"Leer", []⟩ rfl

/-- Claim C2 (amended): for a course with at least one occurrence the
builder succeeds with exactly one event per occurrence, in order; each
event's UID is its occurrence's id; every event (including the first)
carries a RELATED-TO property whose value is the first occurrence's id
and whose parameter list is empty, and a separate RELTYPE property with
value CHILD (the relation type is pushed as its own property, not
attached as a parameter of RELATED-TO). -/
theorem to_ical_shape (c : Course) (e0 : CourseEvent) (tl : List CourseEvent)
    (h : c.events = e0 :: tl) :
    Course.to_ical c =
      .ok ⟨"2.0", "ics-rs", c.events.map (mkCalEvent c.name e0.id)⟩ ∧
    (c.events.map (mkCalEvent c.name e0.id)).length = c.events.length ∧
    (c.events.map (mkCalEvent c.name e0.id)).map IcsEvent.uid =
      c.events.map CourseEvent.id ∧
    (c.events.map (mkCalEvent c.name e0.id)).map
        (fun ev => ev.findProp "RELATED-TO") =
      c.events.map (fun _ => some ⟨"RELATED-TO", e0.id, []⟩) ∧
    (c.events.map (mkCalEvent c.name e0.id)).map
        (fun ev => ev.findProp "RELTYPE") =
      c.events.map (fun _ => some ⟨"RELTYPE", "CHILD", []⟩) := by
  refine ⟨?_, by simp, ?_, ?_, ?_⟩
  · simp only [Course.to_ical, h]
  · simp [List.map_map, Function.comp, mkCalEvent]
  · rw [List.map_map]
    have hf : ((fun ev => IcsEvent.findProp ev "RELATED-TO") ∘
        mkCalEvent c.name e0.id) =
        (fun _ : CourseEvent =>
          some (⟨"RELATED-TO", e0.id, []⟩ : IcsProperty)) := by
      funext ev
      rfl
    rw [hf]
  · rw [List.map_map]
    have hf : ((fun ev => IcsEvent.findProp ev "RELTYPE") ∘
        mkCalEvent c.name e0.id) =
        (fun _ : CourseEvent =>
          some (⟨"RELTYPE", "CHILD", []⟩ : IcsProperty)) := by
      funext ev
      rfl
    rw [hf]

/-- Witness for C2 at a concrete one-occurrence course. -/
theorem to_ical_shape_witness :
    Course.to_ical c2demo =
      .ok ⟨"2.0", "ics-rs", c2demo.events.map (mkCalEvent c2demo.name "o1")⟩ ∧
    (c2demo.events.map (mkCalEvent c2demo.name "o1")).length =
      c2demo.events.length ∧
    (c2demo.events.map (mkCalEvent c2demo.name "o1")).map IcsEvent.uid =
      c2demo.events.map CourseEvent.id ∧
    (c2demo.events.map (mkCalEvent c2demo.name "o1")).map
        (fun ev => ev.findProp "RELATED-TO") =
      c2demo.events.map (fun _ => some ⟨"RELATED-TO", "o1", []⟩) ∧
    (c2demo.events.map (mkCalEvent c2demo.name "o1")).map
        (fun ev => ev.findProp "RELTYPE") =
      c2demo.events.map (fun _ => some ⟨"RELTYPE", "CHILD", []⟩) :=
  to_ical_shape c2demo ⟨"o1", ⟨⟨600, 60⟩, ⟨660, 60⟩⟩⟩ [] rfl

/-- Counterexample to C2 as stated: in the built calendar the
RELATED-TO property of an event has an empty parameter list (no
RELTYPE=CHILD parameter); RELTYPE:CHILD exists only as a separate
property. -/
theorem c2_reltype_not_parameter :
    (((Course.to_ical c2demo).okD default).events.getD 0 default).findProp
        "RELATED-TO" = some ⟨"RELATED-TO", "o1", []⟩ ∧
    ¬ (("RELTYPE", "CHILD") ∈
      (((((Course.to_ical c2demo).okD default).events.getD 0
        default).findProp "RELATED-TO").getD default).parameters) := by
  decide

/-- Claim C5: every built event's DTSTART and DTEND are the occurrence
interval's start and end (absolute UTC instants) in the compact form
YYYYMMDDTHHMMSSZ, and its DTSTAMP equals the same serialization of the
event's own start (not wall-clock time); the builder is a pure function
of the Course value, so building twice gives identical output. -/
theorem to_ical_timestamps (c : Course) (cal : ICalendar)
    (h : Course.to_ical c = .ok cal) :
    cal.events.map IcsEvent.dtstamp =
      c.events.map (fun ev => fmtCompact ev.timespan.start.utc) ∧
    cal.events.map (fun ev => ev.findProp "DTSTART") =
      c.events.map (fun ev =>
        some ⟨"DTSTART", fmtCompact ev.timespan.start.utc, []⟩) ∧
    cal.events.map (fun ev => ev.findProp "DTEND") =
      c.events.map (fun ev =>
        some ⟨"DTEND", fmtCompact ev.timespan.stop.utc, []⟩) ∧
    Course.to_ical c = Course.to_ical c := by
  rcases hev : c.events with _ | ⟨e0, tl⟩
  · simp only [Course.to_ical, hev] at h
    exact absurd h (by simp)
  · simp only [Course.to_ical, hev] at h
    injection h with h1
    subst h1
    refine ⟨?_, ?_, ?_, rfl⟩
    · simp [hev, List.map_map, Function.comp, mkCalEvent]
    · simp [hev, List.map_map, Function.comp, mkCalEvent,
        IcsEvent.findProp, List.find?]
    · simp [hev, List.map_map, Function.comp, mkCalEvent,
        IcsEvent.findProp, List.find?]

/-- Witness for C5 at a concrete one-occurrence course. -/
theorem to_ical_timestamps_witness :
    c2cal.events.map IcsEvent.dtstamp =
      c2demo.events.map (fun ev => fmtCompact ev.timespan.start.utc) ∧
    c2cal.events.map (fun ev => ev.findProp "DTSTART") =
      c2demo.events.map (fun ev =>
        some ⟨"DTSTART", fmtCompact ev.timespan.start.utc, []⟩) ∧
    c2cal.events.map (fun ev => ev.findProp "DTEND") =
      c2demo.events.map (fun ev =>
        some ⟨"DTEND", fmtCompact ev.timespan.stop.utc, []⟩) ∧
    Course.to_ical c2demo = Course.to_ical c2demo :=
  to_ical_timestamps c2demo c2cal (by decide)
